import Mathlib

/-!
# ToolHive `thv config` commands (`cmd/thv/app/config.go`)

A shallow embedding of the client registration commands and of the
running-workload-to-client reconciler `addRunningMCPsToClient`.

Go `error` values are carried by their message text, `nil` is `none`.
Calls into other packages (`labels`, `client`, `config`, `container`,
`networking`) are fields of `Deps`; `client.Upsert` acts on an external
state `σ` (the client configuration files) and is passed separately so that
two runs can be compared under different upsert behaviours.
Every observable action (external call, `fmt.Printf`, `logger.Warnf`) is
recorded in a list of `Event`s in program order.
-/

namespace Toolhive

/-- Go `error`, carried by its message. -/
abbrev GoError := String

/-- Go `map[string]string` of container labels. -/
abbrev LabelMap := List (String × String)

/-- The fields of `rt.ContainerInfo` read by `config.go`. -/
structure ContainerInfo where
  Name : String
  Labels : LabelMap
  State : String
deriving DecidableEq, Repr

/-- The fields of `client.ConfigFile` read by `config.go`. -/
structure ConfigFile where
  ClientType : String
  Path : String
deriving DecidableEq, Repr

/-- The `Clients` section of `config.Config`. -/
structure ClientsConfig where
  RegisteredClients : List String
deriving DecidableEq, Repr

/-- The fields of `config.Config` touched by `config.go`. -/
structure Config where
  Clients : ClientsConfig
  CACertificatePath : String
  RegistryUrl : String
  AllowPrivateRegistryIp : Bool
deriving DecidableEq, Repr

/-- Observable actions, in program order. -/
inductive Event where
  | createRuntime
  | listWorkloads
  | findClientConfigs
  | upsert (cf : ConfigFile) (name url transportType : String)
  | warnf (msg : String)
  | printf (msg : String)
  | updateConfig
  | httpGet (url : String)
deriving DecidableEq, Repr

/-- Functions and constants of other packages used by `config.go`. -/
structure Deps where
  /-- Go `labels.IsToolHiveContainer` -/
  IsToolHiveContainer : LabelMap → Bool
  /-- Go `labels.GetContainerName` -/
  GetContainerName : LabelMap → String
  /-- Go `labels.GetToolType` -/
  GetToolType : LabelMap → String
  /-- Go `labels.GetPort` -/
  GetPort : LabelMap → Except GoError Int
  /-- Go `labels.GetTransportType` -/
  GetTransportType : LabelMap → String
  /-- Go `client.GenerateMCPServerURL` -/
  GenerateMCPServerURL : String → String → Int → String → String
  /-- Go `transport.LocalhostIPv4` -/
  LocalhostIPv4 : String
  /-- Go `container.NewFactory().Create(ctx)`: the error, if any. -/
  CreateRuntime : Option GoError
  /-- Go `runtime.ListWorkloads(ctx)` -/
  ListWorkloads : Except GoError (List ContainerInfo)
  /-- Go `client.FindClientConfigs()` -/
  FindClientConfigs : Except GoError (List ConfigFile)
  /-- Go `config.UpdateConfig`: applies the update to the stored configuration,
  returns the error, if any, and the stored configuration afterwards. -/
  UpdateConfig : (Config → Config) → Config → Option GoError × Config
  /-- Go `networking.GetHttpClient(false).Get(url)`: the error, if any. -/
  HttpGet : String → Option GoError
  /-- Go `networking.ErrPrivateIpAddress` -/
  ErrPrivateIpAddress : String

/-- `client.Upsert(cf, name, url, transportType)` over the external state. -/
abbrev UpsertFn (σ : Type) := ConfigFile → String → String → String → σ → Option GoError × σ

/-- The filter loop of `getRunningToolHiveContainers` (lines 323-328). -/
def filterRunningLoop (d : Deps) : List ContainerInfo → List ContainerInfo → List ContainerInfo
  | [], runningContainers => runningContainers
  | c :: rest, runningContainers =>
    if d.IsToolHiveContainer c.Labels && c.State == "running" then
      filterRunningLoop d rest (runningContainers ++ [c])
    else
      filterRunningLoop d rest runningContainers

/-- `getRunningToolHiveContainers`. -/
def getRunningToolHiveContainers (d : Deps) : Except GoError (List ContainerInfo) × List Event :=
  match d.CreateRuntime with
  | some err => (.error ("failed to create container runtime: " ++ err), [.createRuntime])
  | none =>
    match d.ListWorkloads with
    | .error err => (.error ("failed to list containers: " ++ err), [.createRuntime, .listWorkloads])
    | .ok containers => (.ok (filterRunningLoop d containers []), [.createRuntime, .listWorkloads])

/-- The filter loop of `getFilteredClientConfigs` (lines 236-241). -/
def filterConfigsLoop (clientName : String) : List ConfigFile → List ConfigFile → List ConfigFile
  | [], filtered => filtered
  | clientConfig :: rest, filtered =>
    if clientConfig.ClientType == clientName then
      filterConfigsLoop clientName rest (filtered ++ [clientConfig])
    else
      filterConfigsLoop clientName rest filtered

/-- `getFilteredClientConfigs`. -/
def getFilteredClientConfigs (d : Deps) (clientName : String) :
    Except GoError (List ConfigFile) × List Event :=
  match d.FindClientConfigs with
  | .error err => (.error ("failed to find client configurations: " ++ err), [.findClientConfigs])
  | .ok clientConfigs => (.ok (filterConfigsLoop clientName clientConfigs []), [.findClientConfigs])

/-- The inner loop of `addRunningMCPsToClient` over the config files (lines 296-304). -/
def upsertLoop {σ : Type} (up : UpsertFn σ) (clientName name url transportType : String) :
    List ConfigFile → σ → σ × List Event
  | [], s => (s, [])
  | clientConfig :: rest, s =>
    match up clientConfig name url transportType s with
    | (some err, s1) =>
      let r := upsertLoop up clientName name url transportType rest s1
      (r.1, Event.upsert clientConfig name url transportType
        :: Event.warnf ("Warning: Failed to update MCP server configuration in "
            ++ clientConfig.Path ++ ": " ++ err)
        :: r.2)
    | (none, s1) =>
      let r := upsertLoop up clientName name url transportType rest s1
      (r.1, Event.upsert clientConfig name url transportType
        :: Event.printf ("Added MCP server " ++ name ++ " to client " ++ clientName ++ "\n")
        :: r.2)

/-- The name under which a container is written: the label name, or the
container name when the label is empty (lines 271-274). -/
def containerDisplayName (d : Deps) (c : ContainerInfo) : String :=
  let name := d.GetContainerName c.Labels
  if name == "" then c.Name else name

/-- The outer loop of `addRunningMCPsToClient` over the running containers (lines 269-305). -/
def containerLoop {σ : Type} (d : Deps) (up : UpsertFn σ) (clientName : String)
    (filteredClientConfigs : List ConfigFile) : List ContainerInfo → σ → σ × List Event
  | [], s => (s, [])
  | c :: rest, s =>
    let name := containerDisplayName d c
    let toolType := d.GetToolType c.Labels
    if toolType != "mcp" then
      containerLoop d up clientName filteredClientConfigs rest s
    else
      match d.GetPort c.Labels with
      | .error _ => containerLoop d up clientName filteredClientConfigs rest s
      | .ok port =>
        let transportType := d.GetTransportType c.Labels
        let url := d.GenerateMCPServerURL transportType d.LocalhostIPv4 port name
        let r1 := upsertLoop up clientName name url transportType filteredClientConfigs s
        let r2 := containerLoop d up clientName filteredClientConfigs rest r1.1
        (r2.1, r1.2 ++ r2.2)

/-- `addRunningMCPsToClient`: the returned error (`none` is `nil`), the
external state afterwards and the events of the call. -/
def addRunningMCPsToClient {σ : Type} (d : Deps) (up : UpsertFn σ) (clientName : String)
    (s : σ) : Option GoError × σ × List Event :=
  match getRunningToolHiveContainers d with
  | (.error err, ev1) => (some err, s, ev1)
  | (.ok runningContainers, ev1) =>
    if runningContainers.length == 0 then
      (none, s, ev1)
    else
      match getFilteredClientConfigs d clientName with
      | (.error err, ev2) => (some err, s, ev1 ++ ev2)
      | (.ok filteredClientConfigs, ev2) =>
        if filteredClientConfigs.length == 0 then
          (none, s, ev1 ++ ev2)
        else
          let r := containerLoop d up clientName filteredClientConfigs runningContainers s
          (none, r.1, ev1 ++ ev2 ++ r.2)

/-- The `client.Upsert` calls among the events, in order. -/
def upsertCalls : List Event → List (ConfigFile × String × String × String)
  | [] => []
  | Event.upsert cf name url transportType :: rest => (cf, name, url, transportType) :: upsertCalls rest
  | _ :: rest => upsertCalls rest

/-! ## Client registration commands -/

/-- The `switch clientType` of `registerClientCmdFunc` and `removeClientCmdFunc`
(lines 156-164 and 196-204): `true` on the valid case. -/
def validClientType (clientType : String) : Bool :=
  clientType == "roo-code" || clientType == "cline" || clientType == "cursor"
    || clientType == "claude-code" || clientType == "vscode-insider" || clientType == "vscode"
    || clientType == "windsurf" || clientType == "windsurf-intellij"

/-- The error of the `default` case of the client type switch. -/
def invalidClientTypeError (clientType : String) : GoError :=
  "invalid client type: " ++ clientType
    ++ " (valid types: roo-code, cline, cursor, claude-code, vscode, "
    ++ "vscode-insider, windsurf, windsurf-intellij)"

/-- The membership loop of the closure of `registerClientCmdFunc` (lines 168-173):
`true` when the loop returns early. -/
def alreadyRegisteredLoop (clientType : String) : List String → Bool
  | [] => false
  | registeredClient :: rest =>
    if registeredClient == clientType then true else alreadyRegisteredLoop clientType rest

/-- The closure passed to `config.UpdateConfig` by `registerClientCmdFunc`
(lines 166-177), with what it prints. -/
def registerClientUpdate (clientType : String) (c : Config) : Config × List Event :=
  if alreadyRegisteredLoop clientType c.Clients.RegisteredClients then
    (c, [Event.printf ("Client " ++ clientType ++ " is already registered, skipping...\n")])
  else
    ({ c with Clients := { RegisteredClients := c.Clients.RegisteredClients ++ [clientType] } }, [])

/-- The search loop of the closure of `removeClientCmdFunc` (lines 209-216) at
index `i`, the entries from `i` on still to visit: the new list and `found`. -/
def removeClientLoop (clientType : String) (registeredClients : List String) :
    Nat → List String → List String × Bool
  | _, [] => (registeredClients, false)
  | i, registeredClient :: rest =>
    if registeredClient == clientType then
      (registeredClients.take i ++ registeredClients.drop (i + 1), true)
    else
      removeClientLoop clientType registeredClients (i + 1) rest

/-- The closure passed to `config.UpdateConfig` by `removeClientCmdFunc`
(lines 206-222), with what it prints. -/
def removeClientUpdate (clientType : String) (c : Config) : Config × List Event :=
  let r := removeClientLoop clientType c.Clients.RegisteredClients 0 c.Clients.RegisteredClients
  ({ c with Clients := { RegisteredClients := r.1 } },
    if r.2 then
      [Event.printf ("Client " ++ clientType ++ " removed from registered clients.\n")]
    else
      [Event.printf ("Client " ++ clientType ++ " not found in registered clients.\n")])

/-- `config.UpdateConfig(updateFn)` on the stored configuration: the error,
the stored configuration afterwards, and the events (the call itself, then
whatever the closure printed if the update went through). -/
def runUpdateConfig (d : Deps) (updateFn : Config → Config × List Event) (cfg : Config) :
    Option GoError × Config × List Event :=
  match d.UpdateConfig (fun c => (updateFn c).1) cfg with
  | (some err, cfg1) => (some err, cfg1, [Event.updateConfig])
  | (none, cfg1) => (none, cfg1, Event.updateConfig :: (updateFn cfg).2)

/-- `registerClientCmdFunc` with `args[0] = clientType`: the returned error,
the stored configuration, the client files and the events. -/
def registerClientCmdFunc {σ : Type} (d : Deps) (up : UpsertFn σ) (clientType : String)
    (cfg : Config) (s : σ) : Option GoError × Config × σ × List Event :=
  if validClientType clientType then
    match runUpdateConfig d (registerClientUpdate clientType) cfg with
    | (some err, cfg1, ev1) => (some ("failed to update configuration: " ++ err), cfg1, s, ev1)
    | (none, cfg1, ev1) =>
      let ev2 := [Event.printf ("Successfully registered client: " ++ clientType ++ "\n")]
      match addRunningMCPsToClient d up clientType s with
      | (some err, s1, ev3) =>
        (none, cfg1, s1, ev1 ++ ev2 ++ ev3
          ++ [Event.printf ("Warning: Failed to add running MCPs to client: " ++ err ++ "\n")])
      | (none, s1, ev3) => (none, cfg1, s1, ev1 ++ ev2 ++ ev3)
  else
    (some (invalidClientTypeError clientType), cfg, s, [])

/-- `removeClientCmdFunc` with `args[0] = clientType`: the returned error,
the stored configuration and the events. -/
def removeClientCmdFunc (d : Deps) (clientType : String) (cfg : Config) :
    Option GoError × Config × List Event :=
  if validClientType clientType then
    match runUpdateConfig d (removeClientUpdate clientType) cfg with
    | (some err, cfg1, ev1) => (some ("failed to update configuration: " ++ err), cfg1, ev1)
    | (none, cfg1, ev1) =>
      (none, cfg1, ev1 ++ [Event.printf ("Successfully removed client: " ++ clientType ++ "\n")])
  else
    (some (invalidClientTypeError clientType), cfg, [])

/-! ## Registry URL -/

/-- Go `strings.HasPrefix`. -/
def HasPrefix (s pre : String) : Bool := pre.data.isPrefixOf s.data

/-- Go `strings.Contains` on character lists. -/
def containsChars (sub : List Char) : List Char → Bool
  | [] => sub.isPrefixOf []
  | c :: rest => sub.isPrefixOf (c :: rest) || containsChars sub rest

/-- Go `strings.Contains`. -/
def Contains (s substr : String) : Bool := containsChars substr.data s.data

/-- The error of the URL validation of `setRegistryURLCmdFunc` (line 406). -/
def registryURLSchemeError : GoError := "registry URL must start with http:// or https://"

/-- The closure passed to `config.UpdateConfig` by `setRegistryURLCmdFunc` (lines 418-421). -/
def setRegistryURLUpdate (registryURL : String) (allowPrivateRegistryIp : Bool) (c : Config) :
    Config × List Event :=
  ({ c with RegistryUrl := registryURL, AllowPrivateRegistryIp := allowPrivateRegistryIp }, [])

/-- The reachability probe of `setRegistryURLCmdFunc` (lines 409-415): the
error returned from there, if any, and the events. -/
def registryProbe (d : Deps) (allowPrivateRegistryIp : Bool) (registryURL : String) :
    Option GoError × List Event :=
  if !allowPrivateRegistryIp then
    match d.HttpGet registryURL with
    | some err =>
      if Contains err d.ErrPrivateIpAddress then (some err, [Event.httpGet registryURL])
      else (none, [Event.httpGet registryURL])
    | none => (none, [Event.httpGet registryURL])
  else
    (none, [])

/-- `setRegistryURLCmdFunc` with `args[0] = registryURL` and the flag
`allowPrivateRegistryIp`: the returned error, the stored configuration and the events. -/
def setRegistryURLCmdFunc (d : Deps) (allowPrivateRegistryIp : Bool) (registryURL : String)
    (cfg : Config) : Option GoError × Config × List Event :=
  if registryURL != "" && !HasPrefix registryURL "http://" && !HasPrefix registryURL "https://" then
    (some registryURLSchemeError, cfg, [])
  else
    match registryProbe d allowPrivateRegistryIp registryURL with
    | (some err, ev1) => (some err, cfg, ev1)
    | (none, ev1) =>
      match runUpdateConfig d (setRegistryURLUpdate registryURL allowPrivateRegistryIp) cfg with
      | (some err, cfg1, ev2) => (some ("failed to update configuration: " ++ err), cfg1, ev1 ++ ev2)
      | (none, cfg1, ev2) =>
        (none, cfg1, ev1 ++ ev2
          ++ Event.printf ("Successfully set registry URL: " ++ registryURL ++ "\n")
          :: (if allowPrivateRegistryIp then
                [Event.printf "Successfully enabled use of private IP addresses for the remote registry\n",
                 Event.printf ("Caution: allowing registry URLs containing private IP addresses may decrease your security.\n"
                   ++ "Make sure you trust any remote registries you configure with ToolHive.")]
              else
                [Event.printf ("Use of private IP addresses for the remote registry has been disabled"
                   ++ " as it's not needed for the provided registry.\n")]))

/-! ## Specification-level definitions -/

/-- The test of `getRunningToolHiveContainers` on one workload: owned and running. -/
def ownedRunning (d : Deps) (c : ContainerInfo) : Bool :=
  d.IsToolHiveContainer c.Labels && c.State == "running"

/-- A workload contributes an endpoint when it is owned, running, of tool type
`mcp` and its port resolves: the workload paired with its port. -/
def eligibleEndpoint (d : Deps) (c : ContainerInfo) : Option (ContainerInfo × Int) :=
  if ownedRunning d c && d.GetToolType c.Labels == "mcp" then
    match d.GetPort c.Labels with
    | .ok port => some (c, port)
    | .error _ => none
  else
    none

/-- The eligible workloads with a port, in enumeration order. -/
def eligibleEndpoints (d : Deps) (ws : List ContainerInfo) : List (ContainerInfo × Int) :=
  ws.filterMap (eligibleEndpoint d)

/-- The located config files of the client type, in discovery order. -/
def locatedFiles (clientName : String) (files : List ConfigFile) : List ConfigFile :=
  files.filter fun f => f.ClientType == clientName

/-- The upsert of one endpoint into one file, as the specification words it:
the display name or else the raw name, the label transport, and the URL
generated for the loopback host. -/
def referenceCall (d : Deps) (e : ContainerInfo × Int) (f : ConfigFile) :
    ConfigFile × String × String × String :=
  let name := if d.GetContainerName e.1.Labels = "" then e.1.Name else d.GetContainerName e.1.Labels
  let transport := d.GetTransportType e.1.Labels
  (f, name, d.GenerateMCPServerURL transport d.LocalhostIPv4 e.2 name, transport)

/-- The reference list of upserts: the cross product of eligible endpoints
and located files, endpoints outermost. -/
def referenceUpserts (d : Deps) (clientName : String) (ws : List ContainerInfo)
    (files : List ConfigFile) : List (ConfigFile × String × String × String) :=
  (eligibleEndpoints d ws).flatMap fun e => (locatedFiles clientName files).map (referenceCall d e)

/-- The upserts a call attempts, whatever `client.Upsert` answers: none
unless both the enumeration and the discovery succeed. -/
def expectedUpserts (d : Deps) (clientName : String) : List (ConfigFile × String × String × String) :=
  match d.CreateRuntime, d.ListWorkloads, d.FindClientConfigs with
  | none, .ok ws, .ok files => referenceUpserts d clientName ws files
  | _, _, _ => []

/-- The eight supported client types, as the specification lists them. -/
def supportedClientTypes : List String :=
  ["claude-code", "cline", "cursor", "roo-code", "vscode", "vscode-insider", "windsurf",
    "windsurf-intellij"]

/-- An error is an "invalid client type" error when its message starts so. -/
def isInvalidClientTypeError (err : GoError) : Bool := HasPrefix err "invalid client type: "

/-- The workload enumeration fails: runtime creation or `ListWorkloads`. -/
def enumerationFails (d : Deps) : Bool :=
  d.CreateRuntime.isSome || (match d.ListWorkloads with | .error _ => true | .ok _ => false)

/-- The discovery mechanism fails: `client.FindClientConfigs` returns an error. -/
def discoveryFails (d : Deps) : Bool :=
  match d.FindClientConfigs with | .error _ => true | .ok _ => false

/-- The owned running workloads the runtime lists (none when it lists none). -/
def runningWorkloads (d : Deps) : List ContainerInfo :=
  match d.ListWorkloads with | .ok ws => ws.filter (ownedRunning d) | .error _ => []

/-- The `fmt.Printf` messages among the events that report an added server. -/
def addedReports : List Event → List String
  | [] => []
  | Event.printf msg :: rest =>
    if HasPrefix msg "Added MCP server " then msg :: addedReports rest
    else addedReports rest
  | _ :: rest => addedReports rest

/-- An upsert that always succeeds and keeps no state. -/
def upsertAlwaysSucceeds : UpsertFn Unit := fun _ _ _ _ s => (none, s)

/-- An upsert whose outcomes follow a script: a call fails when the head of
the remaining script is `true`; past the end of the script it succeeds. -/
def scriptedUpsert : UpsertFn (List Bool)
  | _, _, _, _, [] => (none, [])
  | cf, _, _, _, b :: rest => (if b then some ("cannot write " ++ cf.Path) else none, rest)

/-- Modelled from the spec: the entry `MCPServerEntry` persisted inside a client
configuration file (section 3), keyed by `name`. -/
structure MCPServerEntry where
  name : String
  url : String
  transportKind : String
deriving DecidableEq, Repr

/-- Modelled from the spec: the client configuration files by path; `none` is
a file whose entries cannot be parsed or written back. -/
abbrev FileStore := String → Option (List MCPServerEntry)

/-- Modelled from the spec: `client.Upsert` (package `pkg/client`), from section
4.5 step 4 and the glossary: parse the current entries of the one file, find
an entry by exact name match; if found leave the file unchanged, if absent
append a new entry and write the file back. It answers an error or nothing
(section 6); it fails on a file that cannot be parsed or written. -/
def specUpsert : UpsertFn FileStore := fun cf name url transportType fs =>
  match fs cf.Path with
  | none => (some ("cannot update " ++ cf.Path), fs)
  | some entries =>
    if entries.any (fun e => e.name == name) then (none, fs)
    else (none, Function.update fs cf.Path (some (entries ++ [⟨name, url, transportType⟩])))

/-- The upserts of the container loop, read off the containers it is given:
those of tool type `mcp` whose port resolves, each paired with every file. -/
def loopCalls (d : Deps) (files : List ConfigFile) (cs : List ContainerInfo) :
    List (ConfigFile × String × String × String) :=
  cs.flatMap fun c =>
    if d.GetToolType c.Labels = "mcp" then
      match d.GetPort c.Labels with
      | .ok port =>
        files.map fun f =>
          (f, containerDisplayName d c,
            d.GenerateMCPServerURL (d.GetTransportType c.Labels) d.LocalhostIPv4 port
              (containerDisplayName d c),
            d.GetTransportType c.Labels)
      | .error _ => []
    else
      []

/-- A list of upsert calls performed one after the other, with the events of
lines 298-303 for each. -/
def replayUpserts {σ : Type} (up : UpsertFn σ) (clientName : String) :
    List (ConfigFile × String × String × String) → σ → σ × List Event
  | [], s => (s, [])
  | (cf, name, url, transportType) :: rest, s =>
    match up cf name url transportType s with
    | (some err, s1) =>
      ((replayUpserts up clientName rest s1).1,
        Event.upsert cf name url transportType
          :: Event.warnf ("Warning: Failed to update MCP server configuration in "
              ++ cf.Path ++ ": " ++ err)
          :: (replayUpserts up clientName rest s1).2)
    | (none, s1) =>
      ((replayUpserts up clientName rest s1).1,
        Event.upsert cf name url transportType
          :: Event.printf ("Added MCP server " ++ name ++ " to client " ++ clientName ++ "\n")
          :: (replayUpserts up clientName rest s1).2)

/-- The file at `path`, when it can be read, holds an entry named `name`. -/
def HasEntry (fs : FileStore) (path name : String) : Prop :=
  ∀ entries, fs path = some entries → ∃ e ∈ entries, e.name = name

/-! ## A concrete scenario -/

/-- Modelled from the spec: the label scheme of the scenario of section 8, with
keys `owner`, `name`, `toolType`, `transport` and `port`. -/
def scenarioLabel (m : LabelMap) (key : String) : String := (m.lookup key).getD ""

/-- Modelled from the spec: the port label is a decimal string (section 6). -/
def scenarioPort (m : LabelMap) : Except GoError Int :=
  let digits := (scenarioLabel m "port").data
  if !digits.isEmpty && digits.all Char.isDigit then
    .ok (Int.ofNat (digits.foldl (fun n c => 10 * n + (c.toNat - 48)) 0))
  else
    .error "port label missing or malformed"

/-- Modelled from the spec: the packages behind `config.go` for the scenario of
section 8, over a given runtime listing and discovery result; the URL is
`http://host:port/transport`, and the configuration store applies every update. -/
def scenarioDeps (listing : Except GoError (List ContainerInfo))
    (discovery : Except GoError (List ConfigFile)) : Deps where
  IsToolHiveContainer := fun m => scenarioLabel m "owner" == "this-system"
  GetContainerName := fun m => scenarioLabel m "name"
  GetToolType := fun m => scenarioLabel m "toolType"
  GetPort := scenarioPort
  GetTransportType := fun m => scenarioLabel m "transport"
  GenerateMCPServerURL := fun transportType host port _ =>
    "http://" ++ host ++ ":" ++ toString port ++ "/" ++ transportType
  LocalhostIPv4 := "127.0.0.1"
  CreateRuntime := none
  ListWorkloads := listing
  FindClientConfigs := discovery
  UpdateConfig := fun updateFn c => (none, updateFn c)
  HttpGet := fun _ => none
  ErrPrivateIpAddress := "private IP address not allowed"

/-- The workload of the scenario of section 8. -/
def fetchServer : ContainerInfo :=
  { Name := "fetch-server"
    Labels := [("owner", "this-system"), ("toolType", "mcp"), ("transport", "sse"), ("port", "8080")]
    State := "running" }

/-- A stopped workload with the same labels. -/
def stoppedServer : ContainerInfo := { fetchServer with Name := "old-server", State := "exited" }

/-- A running owned workload that is not an MCP server. -/
def proxyTool : ContainerInfo :=
  { Name := "proxy"
    Labels := [("owner", "this-system"), ("toolType", "proxy"), ("transport", "sse"), ("port", "9090")]
    State := "running" }

/-- A running MCP server without a port label. -/
def portlessServer : ContainerInfo :=
  { Name := "portless"
    Labels := [("owner", "this-system"), ("toolType", "mcp"), ("transport", "stdio")]
    State := "running" }

/-- Cursor's config file. -/
def cursorFile : ConfigFile := { ClientType := "cursor", Path := "/home/u/.cursor/mcp.json" }

/-- A second config file of cursor. -/
def cursorFile2 : ConfigFile := { ClientType := "cursor", Path := "/work/.cursor/mcp.json" }

/-- A config file of another client. -/
def vscodeFile : ConfigFile := { ClientType := "vscode", Path := "/home/u/.vscode/mcp.json" }

/-- The scenario: four workloads, three discovered files. -/
def scenario : Deps :=
  scenarioDeps (.ok [stoppedServer, fetchServer, proxyTool, portlessServer])
    (.ok [cursorFile, vscodeFile, cursorFile2])

/-- Cursor's files exist and are empty; no other file can be written. -/
def emptyCursorFiles : FileStore := fun path =>
  if path = cursorFile.Path ∨ path = cursorFile2.Path then some [] else none

/-- A stored configuration with two registered clients. -/
def sampleConfig : Config :=
  { Clients := { RegisteredClients := ["vscode", "cursor"] }
    CACertificatePath := ""
    RegistryUrl := ""
    AllowPrivateRegistryIp := false }

/-! ## Lemmas on the loops -/

theorem filterRunningLoop_eq (d : Deps) (cs acc : List ContainerInfo) :
    filterRunningLoop d cs acc = acc ++ cs.filter (ownedRunning d) := by
  induction cs generalizing acc with
  | nil => simp [filterRunningLoop]
  | cons c rest ih =>
    by_cases h : ownedRunning d c = true
    · have h' := h
      unfold ownedRunning at h'
      simp [filterRunningLoop, h', ih, List.filter_cons, h]
    · have h' := h
      unfold ownedRunning at h'
      simp [filterRunningLoop, h', ih, List.filter_cons, h]

theorem filterConfigsLoop_eq (clientName : String) (fs acc : List ConfigFile) :
    filterConfigsLoop clientName fs acc = acc ++ locatedFiles clientName fs := by
  induction fs generalizing acc with
  | nil => simp [filterConfigsLoop, locatedFiles]
  | cons f rest ih =>
    by_cases h : (f.ClientType == clientName) = true
    · simp [filterConfigsLoop, h, ih, locatedFiles, List.filter_cons]
    · simp [filterConfigsLoop, h, ih, locatedFiles, List.filter_cons]

theorem upsertCalls_append (xs ys : List Event) :
    upsertCalls (xs ++ ys) = upsertCalls xs ++ upsertCalls ys := by
  induction xs with
  | nil => rfl
  | cons e rest ih => cases e <;> simp [upsertCalls, ih]

theorem mem_upsertCalls (evs : List Event) (cf : ConfigFile) (name url tr : String) :
    (cf, name, url, tr) ∈ upsertCalls evs ↔ Event.upsert cf name url tr ∈ evs := by
  induction evs with
  | nil => simp [upsertCalls]
  | cons e rest ih => cases e <;> simp [upsertCalls, ih]

theorem upsertCalls_upsertLoop {σ : Type} (up : UpsertFn σ) (clientName name url tr : String)
    (files : List ConfigFile) (s : σ) :
    upsertCalls (upsertLoop up clientName name url tr files s).2
      = files.map fun f => (f, name, url, tr) := by
  induction files generalizing s with
  | nil => rfl
  | cons f rest ih =>
    unfold upsertLoop
    rcases hup : up f name url tr s with ⟨_ | err, s1⟩
    · simp [upsertCalls, ih]
    · simp [upsertCalls, ih]

theorem containerDisplayName_eq (d : Deps) (c : ContainerInfo) :
    containerDisplayName d c
      = if d.GetContainerName c.Labels = "" then c.Name else d.GetContainerName c.Labels := by
  simp [containerDisplayName]

theorem upsertCalls_containerLoop {σ : Type} (d : Deps) (up : UpsertFn σ) (clientName : String)
    (files : List ConfigFile) (cs : List ContainerInfo) (s : σ)
    (hrun : ∀ c ∈ cs, ownedRunning d c = true) :
    upsertCalls (containerLoop d up clientName files cs s).2
      = (eligibleEndpoints d cs).flatMap fun e => files.map (referenceCall d e) := by
  induction cs generalizing s with
  | nil => rfl
  | cons c rest ih =>
    have hc : ownedRunning d c = true := hrun c (List.mem_cons_self _ _)
    have hrest : ∀ c ∈ rest, ownedRunning d c = true :=
      fun x hx => hrun x (List.mem_cons_of_mem _ hx)
    unfold containerLoop
    by_cases ht : d.GetToolType c.Labels = "mcp"
    · cases hp : d.GetPort c.Labels with
      | error e =>
        simp [ht, hp, ih _ hrest, eligibleEndpoints, eligibleEndpoint, hc, List.filterMap_cons]
      | ok port =>
        simp [ht, hp, ih _ hrest, eligibleEndpoints, eligibleEndpoint, hc, List.filterMap_cons,
          upsertCalls_append, upsertCalls_upsertLoop, referenceCall, containerDisplayName_eq]
    · simp [ht, ih _ hrest, eligibleEndpoints, eligibleEndpoint, hc, List.filterMap_cons]

theorem eligibleEndpoints_filter (d : Deps) (ws : List ContainerInfo) :
    eligibleEndpoints d (ws.filter (ownedRunning d)) = eligibleEndpoints d ws := by
  induction ws with
  | nil => rfl
  | cons c rest ih =>
    unfold eligibleEndpoints at ih ⊢
    by_cases hc : ownedRunning d c = true
    · simp [List.filter_cons, hc, List.filterMap_cons, ih]
    · simp [List.filter_cons, hc, List.filterMap_cons, ih, eligibleEndpoint]

/-- Whatever `client.Upsert` answers, the upserts attempted by
`addRunningMCPsToClient` are the expected ones. -/
theorem upsertCalls_addRunning {σ : Type} (d : Deps) (up : UpsertFn σ) (clientName : String)
    (s : σ) :
    upsertCalls (addRunningMCPsToClient d up clientName s).2.2 = expectedUpserts d clientName := by
  unfold addRunningMCPsToClient getRunningToolHiveContainers expectedUpserts
  cases hrt : d.CreateRuntime with
  | some e => simp [upsertCalls]
  | none =>
    cases hws : d.ListWorkloads with
    | error e => simp [upsertCalls]
    | ok ws =>
      simp only [filterRunningLoop_eq, List.nil_append]
      by_cases hrun : (ws.filter (ownedRunning d)).length = 0
      · have hnil : ws.filter (ownedRunning d) = [] := List.length_eq_zero.mp hrun
        have he : eligibleEndpoints d ws = [] := by
          rw [← eligibleEndpoints_filter, hnil]; rfl
        cases hfs : d.FindClientConfigs <;>
          simp [hnil, upsertCalls, referenceUpserts, he]
      · unfold getFilteredClientConfigs
        cases hfs : d.FindClientConfigs with
        | error e => simp [hrun, upsertCalls]
        | ok files =>
          simp only [filterConfigsLoop_eq, List.nil_append]
          by_cases hloc : (locatedFiles clientName files).length = 0
          · have hnil : locatedFiles clientName files = [] := List.length_eq_zero.mp hloc
            simp [hrun, hnil, upsertCalls, referenceUpserts]
          · simp [hrun, hloc, upsertCalls_append, upsertCalls, referenceUpserts]
            rw [upsertCalls_containerLoop _ _ _ _ _ _ (fun c hc => (List.mem_filter.mp hc).2),
              eligibleEndpoints_filter]

theorem addRunning_result_isSome {σ : Type} (d : Deps) (up : UpsertFn σ) (clientName : String)
    (s : σ) :
    (addRunningMCPsToClient d up clientName s).1.isSome
      = (enumerationFails d || (!(runningWorkloads d).isEmpty && discoveryFails d)) := by
  unfold addRunningMCPsToClient getRunningToolHiveContainers enumerationFails runningWorkloads
    discoveryFails
  cases hrt : d.CreateRuntime with
  | some e => simp
  | none =>
    cases hws : d.ListWorkloads with
    | error e => simp
    | ok ws =>
      simp only [filterRunningLoop_eq, List.nil_append]
      by_cases hrun : (ws.filter (ownedRunning d)).length = 0
      · have hnil : ws.filter (ownedRunning d) = [] := List.length_eq_zero.mp hrun
        simp [hnil]
      · have hne : ws.filter (ownedRunning d) ≠ [] := fun h => hrun (by simp [h])
        unfold getFilteredClientConfigs
        cases hfs : d.FindClientConfigs with
        | error e => simp [hrun, List.isEmpty_iff, hne]
        | ok files =>
          by_cases hloc : (filterConfigsLoop clientName files []).length = 0
          · simp [hrun, hloc]
          · simp [hrun, hloc]

theorem addRunning_enumerationFails {σ : Type} (d : Deps) (up : UpsertFn σ) (clientName : String)
    (s : σ) (h : enumerationFails d = true) :
    (addRunningMCPsToClient d up clientName s).2.1 = s
      ∧ ((addRunningMCPsToClient d up clientName s).2.2 = [Event.createRuntime]
        ∨ (addRunningMCPsToClient d up clientName s).2.2
            = [Event.createRuntime, Event.listWorkloads]) := by
  unfold enumerationFails at h
  unfold addRunningMCPsToClient getRunningToolHiveContainers
  cases hrt : d.CreateRuntime with
  | some e => simp
  | none =>
    cases hws : d.ListWorkloads with
    | error e => simp
    | ok ws => simp [hrt, hws] at h

/-- C1 (filtering correctness): every `client.Upsert` call made by
`addRunningMCPsToClient` stems from a workload of the runtime listing that is
running, that `labels.IsToolHiveContainer` accepts and whose tool type is
`mcp`; the name, transport and URL of the call are those of that workload. -/
theorem upsert_only_for_owned_running_mcp {σ : Type} (d : Deps) (up : UpsertFn σ)
    (clientName : String) (s : σ) (cf : ConfigFile) (name url transportType : String)
    (h : Event.upsert cf name url transportType ∈ (addRunningMCPsToClient d up clientName s).2.2) :
    ∃ ws c, d.ListWorkloads = .ok ws ∧ c ∈ ws
      ∧ c.State = "running" ∧ d.IsToolHiveContainer c.Labels = true
      ∧ d.GetToolType c.Labels = "mcp"
      ∧ name = containerDisplayName d c ∧ transportType = d.GetTransportType c.Labels
      ∧ ∃ port, d.GetPort c.Labels = .ok port
          ∧ url = d.GenerateMCPServerURL transportType d.LocalhostIPv4 port name := by
  rw [← mem_upsertCalls, upsertCalls_addRunning] at h
  unfold expectedUpserts at h
  cases hrt : d.CreateRuntime with
  | some e => simp [hrt] at h
  | none =>
    cases hws : d.ListWorkloads with
    | error e => simp [hrt, hws] at h
    | ok ws =>
      cases hfs : d.FindClientConfigs with
      | error e => simp [hrt, hws, hfs] at h
      | ok files =>
        simp only [hrt, hws, hfs, referenceUpserts, List.mem_flatMap, List.mem_map] at h
        obtain ⟨e, he, f, _, hcall⟩ := h
        unfold eligibleEndpoints at he
        obtain ⟨c, hc, hce⟩ := List.mem_filterMap.mp he
        refine ⟨ws, c, rfl, hc, ?_⟩
        unfold eligibleEndpoint at hce
        by_cases hel : (ownedRunning d c && d.GetToolType c.Labels == "mcp") = true
        · rw [if_pos hel] at hce
          cases hp : d.GetPort c.Labels with
          | error err => simp [hp] at hce
          | ok port =>
            simp only [hp, Option.some.injEq] at hce
            subst hce
            simp only [referenceCall, Prod.mk.injEq] at hcall
            obtain ⟨_, hname, hurl, htr⟩ := hcall
            simp only [ownedRunning, Bool.and_eq_true, beq_iff_eq] at hel
            refine ⟨hel.1.2, hel.1.1, hel.2, ?_, htr.symm, port, rfl, ?_⟩
            · rw [containerDisplayName_eq]; exact hname.symm
            · rw [← hurl, ← hname, ← htr]
        · rw [if_neg hel] at hce
          cases hce

/-- Witness of C1 on the scenario: the upsert into cursor's file stems from
the running `fetch-server`. -/
theorem upsert_only_for_owned_running_mcp_witness :
    Event.upsert cursorFile "fetch-server" "http://127.0.0.1:8080/sse" "sse"
        ∈ (addRunningMCPsToClient scenario scriptedUpsert "cursor" [true, false]).2.2
      ∧ ∃ ws c, scenario.ListWorkloads = .ok ws ∧ c ∈ ws
        ∧ c.State = "running" ∧ scenario.IsToolHiveContainer c.Labels = true
        ∧ scenario.GetToolType c.Labels = "mcp"
        ∧ "fetch-server" = containerDisplayName scenario c
        ∧ "sse" = scenario.GetTransportType c.Labels
        ∧ ∃ port, scenario.GetPort c.Labels = .ok port
            ∧ "http://127.0.0.1:8080/sse"
              = scenario.GenerateMCPServerURL "sse" scenario.LocalhostIPv4 port "fetch-server" :=
  ⟨by decide,
    upsert_only_for_owned_running_mcp scenario scriptedUpsert "cursor" [true, false] cursorFile
      "fetch-server" "http://127.0.0.1:8080/sse" "sse" (by decide)⟩

/-- C2 (isolation): when enumeration and discovery succeed, whatever each
`client.Upsert` call answers, `addRunningMCPsToClient` attempts the same
sequence of upserts as when every upsert succeeds, and returns `nil`. -/
theorem upsert_failures_isolated {σ : Type} (d : Deps) (clientName : String)
    (ws : List ContainerInfo) (files : List ConfigFile)
    (hrt : d.CreateRuntime = none) (hws : d.ListWorkloads = .ok ws)
    (hfs : d.FindClientConfigs = .ok files) (up : UpsertFn σ) (s : σ) :
    upsertCalls (addRunningMCPsToClient d up clientName s).2.2
        = upsertCalls (addRunningMCPsToClient d upsertAlwaysSucceeds clientName ()).2.2
      ∧ (addRunningMCPsToClient d up clientName s).1 = none := by
  refine ⟨by rw [upsertCalls_addRunning, upsertCalls_addRunning], ?_⟩
  have h := addRunning_result_isSome d up clientName s
  simp [enumerationFails, discoveryFails, hrt, hws, hfs] at h
  exact h

/-- Witness of C2 on the scenario: the upsert into cursor's first file fails,
the one into its second file is attempted all the same. -/
theorem upsert_failures_isolated_witness :
    (scenario.CreateRuntime = none
      ∧ scenario.ListWorkloads = .ok [stoppedServer, fetchServer, proxyTool, portlessServer]
      ∧ scenario.FindClientConfigs = .ok [cursorFile, vscodeFile, cursorFile2])
    ∧ (upsertCalls (addRunningMCPsToClient scenario scriptedUpsert "cursor" [true, false]).2.2
          = upsertCalls (addRunningMCPsToClient scenario upsertAlwaysSucceeds "cursor" ()).2.2
        ∧ (addRunningMCPsToClient scenario scriptedUpsert "cursor" [true, false]).1 = none) :=
  ⟨⟨rfl, rfl, rfl⟩,
    upsert_failures_isolated scenario "cursor" _ _ rfl rfl rfl scriptedUpsert [true, false]⟩

/-- Counterexample to C3 as stated: with no owned running workload the call
returns `nil` although `client.FindClientConfigs` would return an error. -/
theorem call_error_iff_enumeration_or_discovery_fails_counterexample :
    ¬ ((addRunningMCPsToClient
          (scenarioDeps (.ok [stoppedServer]) (.error "cannot read home directory"))
          upsertAlwaysSucceeds "cursor" ()).1.isSome = true
        ↔ (enumerationFails (scenarioDeps (.ok [stoppedServer]) (.error "cannot read home directory"))
              = true
            ∨ discoveryFails (scenarioDeps (.ok [stoppedServer]) (.error "cannot read home directory"))
              = true)) := by
  decide

/-- C3 (call-level errors, amended): `addRunningMCPsToClient` returns an error
exactly when the enumeration fails, or when some owned running workload is
listed and `client.FindClientConfigs` returns an error; this holds whatever
`client.Upsert` answers. When the enumeration fails, no discovery and no
upsert is performed and the client files are untouched. -/
theorem call_error_characterisation {σ : Type} (d : Deps) (up : UpsertFn σ) (clientName : String)
    (s : σ) :
    ((addRunningMCPsToClient d up clientName s).1.isSome = true
        ↔ (enumerationFails d = true ∨ (runningWorkloads d ≠ [] ∧ discoveryFails d = true)))
      ∧ (enumerationFails d = true →
          Event.findClientConfigs ∉ (addRunningMCPsToClient d up clientName s).2.2
            ∧ upsertCalls (addRunningMCPsToClient d up clientName s).2.2 = []
            ∧ (addRunningMCPsToClient d up clientName s).2.1 = s) := by
  constructor
  · rw [addRunning_result_isSome]
    simp [List.isEmpty_iff]
  · intro h
    obtain ⟨hs, hev | hev⟩ := addRunning_enumerationFails d up clientName s h
    · simp [hev, hs, upsertCalls]
    · simp [hev, hs, upsertCalls]

/-- Witness of C3: the runtime cannot list its workloads; the call fails
without discovery or upsert. -/
theorem call_error_characterisation_witness :
    enumerationFails (scenarioDeps (.error "runtime unreachable") (.ok [cursorFile])) = true
      ∧ (addRunningMCPsToClient (scenarioDeps (.error "runtime unreachable") (.ok [cursorFile]))
            scriptedUpsert "cursor" [true]).1.isSome = true
      ∧ Event.findClientConfigs
          ∉ (addRunningMCPsToClient (scenarioDeps (.error "runtime unreachable") (.ok [cursorFile]))
              scriptedUpsert "cursor" [true]).2.2
      ∧ upsertCalls (addRunningMCPsToClient
            (scenarioDeps (.error "runtime unreachable") (.ok [cursorFile]))
            scriptedUpsert "cursor" [true]).2.2 = []
      ∧ (addRunningMCPsToClient (scenarioDeps (.error "runtime unreachable") (.ok [cursorFile]))
            scriptedUpsert "cursor" [true]).2.1 = [true] :=
  ⟨by decide,
    (call_error_characterisation (scenarioDeps (.error "runtime unreachable") (.ok [cursorFile]))
      scriptedUpsert "cursor" [true]).1.mpr (Or.inl (by decide)),
    (call_error_characterisation (scenarioDeps (.error "runtime unreachable") (.ok [cursorFile]))
      scriptedUpsert "cursor" [true]).2 (by decide)⟩

/-- C4 (no-op on absence): when the enumeration succeeds and no discovered
file has the requested client type, `getFilteredClientConfigs` yields zero
files and `addRunningMCPsToClient` returns `nil`, calls `client.Upsert` zero
times and leaves the client files untouched. -/
theorem no_located_file_is_noop {σ : Type} (d : Deps) (up : UpsertFn σ) (clientName : String)
    (s : σ) (ws : List ContainerInfo) (files : List ConfigFile)
    (hrt : d.CreateRuntime = none) (hws : d.ListWorkloads = .ok ws)
    (hfs : d.FindClientConfigs = .ok files)
    (hnone : ∀ f ∈ files, f.ClientType ≠ clientName) :
    (getFilteredClientConfigs d clientName).1 = .ok []
      ∧ (addRunningMCPsToClient d up clientName s).1 = none
      ∧ upsertCalls (addRunningMCPsToClient d up clientName s).2.2 = []
      ∧ (addRunningMCPsToClient d up clientName s).2.1 = s := by
  have hloc : locatedFiles clientName files = [] := by
    unfold locatedFiles
    rw [List.filter_eq_nil_iff]
    intro f hf
    simpa using hnone f hf
  have hres : (addRunningMCPsToClient d up clientName s).1 = none := by
    have h := addRunning_result_isSome d up clientName s
    simp [enumerationFails, discoveryFails, hrt, hws, hfs] at h
    exact h
  refine ⟨?_, hres, ?_, ?_⟩
  · simp [getFilteredClientConfigs, hfs, filterConfigsLoop_eq, hloc]
  · rw [upsertCalls_addRunning]
    simp [expectedUpserts, hrt, hws, hfs, referenceUpserts, hloc]
  · unfold addRunningMCPsToClient getRunningToolHiveContainers getFilteredClientConfigs
    simp only [hrt, hws, hfs, filterConfigsLoop_eq, hloc, List.nil_append]
    by_cases hrun : (filterRunningLoop d ws []).length = 0
    · simp [hrun]
    · simp [hrun]

/-- Witness of C4 on the scenario: no file of `windsurf` is discovered. -/
theorem no_located_file_is_noop_witness :
    (scenario.CreateRuntime = none
      ∧ scenario.ListWorkloads = .ok [stoppedServer, fetchServer, proxyTool, portlessServer]
      ∧ scenario.FindClientConfigs = .ok [cursorFile, vscodeFile, cursorFile2]
      ∧ ∀ f ∈ [cursorFile, vscodeFile, cursorFile2], f.ClientType ≠ "windsurf")
    ∧ ((getFilteredClientConfigs scenario "windsurf").1 = .ok []
      ∧ (addRunningMCPsToClient scenario scriptedUpsert "windsurf" [true]).1 = none
      ∧ upsertCalls (addRunningMCPsToClient scenario scriptedUpsert "windsurf" [true]).2.2 = []
      ∧ (addRunningMCPsToClient scenario scriptedUpsert "windsurf" [true]).2.1 = [true]) :=
  ⟨⟨rfl, rfl, rfl, by decide⟩,
    no_located_file_is_noop scenario scriptedUpsert "windsurf" [true] _ _ rfl rfl rfl (by decide)⟩

/-- C6 (cross-product upsert): when enumeration and discovery succeed, the
sequence of `client.Upsert` calls of `addRunningMCPsToClient` is the reference
list, one call per eligible workload with a port and per located file of the
client type, workloads outermost, both in their given order; their number is
the product of the two counts. -/
theorem upserts_are_cross_product {σ : Type} (d : Deps) (up : UpsertFn σ) (clientName : String)
    (s : σ) (ws : List ContainerInfo) (files : List ConfigFile)
    (hrt : d.CreateRuntime = none) (hws : d.ListWorkloads = .ok ws)
    (hfs : d.FindClientConfigs = .ok files) :
    upsertCalls (addRunningMCPsToClient d up clientName s).2.2
        = referenceUpserts d clientName ws files
      ∧ (upsertCalls (addRunningMCPsToClient d up clientName s).2.2).length
        = (eligibleEndpoints d ws).length * (locatedFiles clientName files).length := by
  have h : upsertCalls (addRunningMCPsToClient d up clientName s).2.2
      = referenceUpserts d clientName ws files := by
    rw [upsertCalls_addRunning]
    simp [expectedUpserts, hrt, hws, hfs]
  refine ⟨h, ?_⟩
  rw [h]
  unfold referenceUpserts
  induction eligibleEndpoints d ws with
  | nil => simp
  | cons e rest ih => simp [List.flatMap_cons, ih, Nat.succ_mul, Nat.add_comm]

/-- Witness of C6 on the scenario: one eligible workload, two files of cursor. -/
theorem upserts_are_cross_product_witness :
    (scenario.CreateRuntime = none
      ∧ scenario.ListWorkloads = .ok [stoppedServer, fetchServer, proxyTool, portlessServer]
      ∧ scenario.FindClientConfigs = .ok [cursorFile, vscodeFile, cursorFile2])
    ∧ (upsertCalls (addRunningMCPsToClient scenario scriptedUpsert "cursor" [true, false]).2.2
          = referenceUpserts scenario "cursor"
              [stoppedServer, fetchServer, proxyTool, portlessServer]
              [cursorFile, vscodeFile, cursorFile2]
        ∧ (upsertCalls (addRunningMCPsToClient scenario scriptedUpsert "cursor" [true, false]).2.2).length
          = (eligibleEndpoints scenario [stoppedServer, fetchServer, proxyTool, portlessServer]).length
              * (locatedFiles "cursor" [cursorFile, vscodeFile, cursorFile2]).length) :=
  ⟨⟨rfl, rfl, rfl⟩,
    upserts_are_cross_product scenario scriptedUpsert "cursor" [true, false] _ _ rfl rfl rfl⟩

/-! ## Client registration -/

theorem validClientType_iff (clientType : String) :
    validClientType clientType = true ↔ clientType ∈ supportedClientTypes := by
  simp only [validClientType, supportedClientTypes, Bool.or_eq_true, beq_iff_eq, List.mem_cons,
    List.mem_singleton, List.mem_nil_iff, or_false]
  tauto

theorem invalidClientTypeError_is (clientType : String) :
    isInvalidClientTypeError (invalidClientTypeError clientType) = true := by
  simp [isInvalidClientTypeError, HasPrefix, invalidClientTypeError, String.data_append]

theorem updateFailure_is_not (err : GoError) :
    isInvalidClientTypeError ("failed to update configuration: " ++ err) = false := by
  have h : "failed to update configuration: ".data
      = 'f' :: "ailed to update configuration: ".data := by decide
  have h2 : "invalid client type: ".data = 'i' :: "nvalid client type: ".data := by decide
  simp only [isInvalidClientTypeError, HasPrefix, String.data_append, h, h2, List.cons_append,
    List.isPrefixOf]
  simp

/-- C7 (client type validation): `registerClientCmdFunc` and
`removeClientCmdFunc` return an "invalid client type" error exactly when the
argument is not one of the eight supported client types; in that case the
stored configuration and the client files are unchanged and nothing was
called: no `config.UpdateConfig`, no synchronization. -/
theorem invalid_client_type_iff_unsupported {σ : Type} (d : Deps) (up : UpsertFn σ)
    (clientType : String) (cfg : Config) (s : σ) :
    ((∃ err, (registerClientCmdFunc d up clientType cfg s).1 = some err
          ∧ isInvalidClientTypeError err = true) ↔ clientType ∉ supportedClientTypes)
      ∧ ((∃ err, (removeClientCmdFunc d clientType cfg).1 = some err
          ∧ isInvalidClientTypeError err = true) ↔ clientType ∉ supportedClientTypes)
      ∧ (clientType ∉ supportedClientTypes →
          registerClientCmdFunc d up clientType cfg s
              = (some (invalidClientTypeError clientType), cfg, s, [])
            ∧ removeClientCmdFunc d clientType cfg
              = (some (invalidClientTypeError clientType), cfg, [])) := by
  by_cases hv : validClientType clientType = true
  · have hmem : clientType ∈ supportedClientTypes := (validClientType_iff _).mp hv
    refine ⟨?_, ?_, fun h => absurd hmem h⟩
    · constructor
      · rintro ⟨err, herr, hinv⟩
        exfalso
        unfold registerClientCmdFunc at herr
        rw [if_pos hv] at herr
        rcases hu : runUpdateConfig d (registerClientUpdate clientType) cfg with ⟨_ | e, cfg1, ev1⟩
        · rw [hu] at herr
          rcases ha : addRunningMCPsToClient d up clientType s with ⟨_ | e2, s1, ev3⟩
          · simp [ha] at herr
          · simp [ha] at herr
        · rw [hu] at herr
          simp only [Option.some.injEq] at herr
          rw [← herr, updateFailure_is_not] at hinv
          cases hinv
      · intro h; exact absurd hmem h
    · constructor
      · rintro ⟨err, herr, hinv⟩
        exfalso
        unfold removeClientCmdFunc at herr
        rw [if_pos hv] at herr
        rcases hu : runUpdateConfig d (removeClientUpdate clientType) cfg with ⟨_ | e, cfg1, ev1⟩
        · simp [hu] at herr
        · rw [hu] at herr
          simp only [Option.some.injEq] at herr
          rw [← herr, updateFailure_is_not] at hinv
          cases hinv
      · intro h; exact absurd hmem h
  · have hnot : clientType ∉ supportedClientTypes := fun h => hv ((validClientType_iff _).mpr h)
    have hr : registerClientCmdFunc d up clientType cfg s
        = (some (invalidClientTypeError clientType), cfg, s, []) := by
      unfold registerClientCmdFunc
      rw [if_neg hv]
    have hm : removeClientCmdFunc d clientType cfg
        = (some (invalidClientTypeError clientType), cfg, []) := by
      unfold removeClientCmdFunc
      rw [if_neg hv]
    refine ⟨?_, ?_, fun _ => ⟨hr, hm⟩⟩
    · exact ⟨fun _ => hnot, fun _ => ⟨_, by rw [hr], invalidClientTypeError_is _⟩⟩
    · exact ⟨fun _ => hnot, fun _ => ⟨_, by rw [hm], invalidClientTypeError_is _⟩⟩

/-- Witness of C7: `Cursor` with a capital letter is rejected by both
commands and nothing is touched. -/
theorem invalid_client_type_iff_unsupported_witness :
    "Cursor" ∉ supportedClientTypes
      ∧ registerClientCmdFunc scenario scriptedUpsert "Cursor" sampleConfig [true]
          = (some (invalidClientTypeError "Cursor"), sampleConfig, [true], [])
      ∧ removeClientCmdFunc scenario "Cursor" sampleConfig
          = (some (invalidClientTypeError "Cursor"), sampleConfig, []) :=
  ⟨by decide,
    (invalid_client_type_iff_unsupported scenario scriptedUpsert "Cursor" sampleConfig
      [true]).2.2 (by decide)⟩

theorem alreadyRegisteredLoop_iff (clientType : String) (rc : List String) :
    alreadyRegisteredLoop clientType rc = true ↔ clientType ∈ rc := by
  induction rc with
  | nil => simp [alreadyRegisteredLoop]
  | cons x rest ih =>
    by_cases hx : x = clientType
    · simp [alreadyRegisteredLoop, hx]
    · have hx' : ¬ clientType = x := fun h => hx h.symm
      simp [alreadyRegisteredLoop, hx, hx', ih]

theorem removeClientLoop_eq (clientType : String) (rest before : List String) :
    removeClientLoop clientType (before ++ rest) before.length rest
      = (before ++ rest.erase clientType, decide (clientType ∈ rest)) := by
  induction rest generalizing before with
  | nil => simp [removeClientLoop]
  | cons x rest ih =>
    by_cases hx : x = clientType
    · subst hx
      simp [removeClientLoop, List.take_append_eq_append_take, List.drop_append_eq_append_drop]
    · have hx' : ¬ clientType = x := fun h => hx h.symm
      have h := ih (before ++ [x])
      simp only [List.append_assoc, List.singleton_append, List.length_append,
        List.length_singleton] at h
      simp [removeClientLoop, hx, hx', h, List.erase_cons]

theorem removeClientUpdate_eq (clientType : String) (c : Config) :
    (removeClientUpdate clientType c).1.Clients.RegisteredClients
      = c.Clients.RegisteredClients.erase clientType := by
  have h := removeClientLoop_eq clientType c.Clients.RegisteredClients []
  simp only [List.nil_append, List.length_nil] at h
  simp [removeClientUpdate, h]

theorem registerClientUpdate_eq (clientType : String) (c : Config) :
    (registerClientUpdate clientType c).1.Clients.RegisteredClients
      = if clientType ∈ c.Clients.RegisteredClients then c.Clients.RegisteredClients
        else c.Clients.RegisteredClients ++ [clientType] := by
  unfold registerClientUpdate
  by_cases h : clientType ∈ c.Clients.RegisteredClients
  · simp [(alreadyRegisteredLoop_iff _ _).mpr h, h]
  · have h' : alreadyRegisteredLoop clientType c.Clients.RegisteredClients = false := by
      rw [← Bool.not_eq_true, alreadyRegisteredLoop_iff]; exact h
    simp [h', h]

/-- C8 (registered clients stay unique): a registered-clients list without
duplicates has none after the update of `registerClientCmdFunc` or of
`removeClientCmdFunc`, for any client type. Registering a client type that is
present leaves the configuration unchanged; registering an absent one
appends it at the end of the list. -/
theorem registered_clients_stay_unique (clientType : String) (c : Config) :
    (c.Clients.RegisteredClients.Nodup →
        (registerClientUpdate clientType c).1.Clients.RegisteredClients.Nodup
          ∧ (removeClientUpdate clientType c).1.Clients.RegisteredClients.Nodup)
      ∧ (clientType ∈ c.Clients.RegisteredClients → (registerClientUpdate clientType c).1 = c)
      ∧ (clientType ∉ c.Clients.RegisteredClients →
          (registerClientUpdate clientType c).1.Clients.RegisteredClients
            = c.Clients.RegisteredClients ++ [clientType]) := by
  refine ⟨fun hnd => ⟨?_, ?_⟩, fun hmem => ?_, fun hnot => ?_⟩
  · rw [registerClientUpdate_eq]
    by_cases h : clientType ∈ c.Clients.RegisteredClients
    · simpa [h] using hnd
    · rw [if_neg h]
      exact List.Nodup.append hnd (List.nodup_singleton _) (by simpa using h)
  · rw [removeClientUpdate_eq]
    exact hnd.erase _
  · simp [registerClientUpdate, (alreadyRegisteredLoop_iff _ _).mpr hmem]
  · rw [registerClientUpdate_eq, if_neg hnot]

/-- Witness of C8: registering `cline` and removing `vscode` on a list of two. -/
theorem registered_clients_stay_unique_witness :
    sampleConfig.Clients.RegisteredClients.Nodup
      ∧ "cline" ∉ sampleConfig.Clients.RegisteredClients
      ∧ (registerClientUpdate "cline" sampleConfig).1.Clients.RegisteredClients.Nodup
      ∧ (removeClientUpdate "cline" sampleConfig).1.Clients.RegisteredClients.Nodup
      ∧ (registerClientUpdate "cline" sampleConfig).1.Clients.RegisteredClients
          = sampleConfig.Clients.RegisteredClients ++ ["cline"] :=
  ⟨by decide, by decide,
    ((registered_clients_stay_unique "cline" sampleConfig).1 (by decide)).1,
    ((registered_clients_stay_unique "cline" sampleConfig).1 (by decide)).2,
    (registered_clients_stay_unique "cline" sampleConfig).2.2 (by decide)⟩

/-- C9 (remove postcondition): the update of `removeClientCmdFunc` turns the
registered-clients list into the old list with the first occurrence of the
client type deleted: unchanged when it is absent, and `before ++ after` when
the list is `before ++ X :: after` with `X` not in `before`. When the old list
has no duplicates, `X` is not in the new one. For a valid `X` and a
configuration store that applies the update, this is the list stored after
the command. -/
theorem remove_deletes_first_occurrence (clientType : String) (c : Config) :
    (removeClientUpdate clientType c).1.Clients.RegisteredClients
        = c.Clients.RegisteredClients.erase clientType
      ∧ (clientType ∉ c.Clients.RegisteredClients →
          (removeClientUpdate clientType c).1.Clients.RegisteredClients
            = c.Clients.RegisteredClients)
      ∧ (∀ before after, c.Clients.RegisteredClients = before ++ clientType :: after →
          clientType ∉ before →
          (removeClientUpdate clientType c).1.Clients.RegisteredClients = before ++ after)
      ∧ (c.Clients.RegisteredClients.Nodup →
          clientType ∉ (removeClientUpdate clientType c).1.Clients.RegisteredClients)
      ∧ (∀ d : Deps, validClientType clientType = true →
          d.UpdateConfig (fun x => (removeClientUpdate clientType x).1) c
            = (none, (removeClientUpdate clientType c).1) →
          (removeClientCmdFunc d clientType c).1 = none
            ∧ (removeClientCmdFunc d clientType c).2.1.Clients.RegisteredClients
              = c.Clients.RegisteredClients.erase clientType) := by
  have he := removeClientUpdate_eq clientType c
  refine ⟨he, fun hnot => ?_, fun before after hsplit hnb => ?_, fun hnd => ?_,
    fun d hv hstore => ?_⟩
  · rw [he, List.erase_of_not_mem hnot]
  · rw [he, hsplit, List.erase_append_right _ hnb, List.erase_cons_head]
  · rw [he]
    intro hmem
    exact ((hnd.mem_erase_iff).mp hmem).1 rfl
  · unfold removeClientCmdFunc runUpdateConfig
    rw [if_pos hv, hstore]
    exact ⟨rfl, he⟩

/-- Witness of C9: removing `vscode` from `[vscode, cursor]` through the command. -/
theorem remove_deletes_first_occurrence_witness :
    (sampleConfig.Clients.RegisteredClients = [] ++ "vscode" :: ["cursor"]
      ∧ "vscode" ∉ ([] : List String)
      ∧ sampleConfig.Clients.RegisteredClients.Nodup
      ∧ validClientType "vscode" = true)
    ∧ (removeClientUpdate "vscode" sampleConfig).1.Clients.RegisteredClients = [] ++ ["cursor"]
    ∧ "vscode" ∉ (removeClientUpdate "vscode" sampleConfig).1.Clients.RegisteredClients
    ∧ (removeClientCmdFunc scenario "vscode" sampleConfig).1 = none
    ∧ (removeClientCmdFunc scenario "vscode" sampleConfig).2.1.Clients.RegisteredClients
        = sampleConfig.Clients.RegisteredClients.erase "vscode" :=
  ⟨⟨rfl, by decide, by decide, by decide⟩,
    (remove_deletes_first_occurrence "vscode" sampleConfig).2.2.1 [] ["cursor"] rfl (by decide),
    (remove_deletes_first_occurrence "vscode" sampleConfig).2.2.2.1 (by decide),
    (remove_deletes_first_occurrence "vscode" sampleConfig).2.2.2.2 scenario (by decide) rfl⟩

/-! ## Registry URL -/

/-- Counterexample to C10 as stated: the empty argument starts with neither
scheme, yet `setRegistryURLCmdFunc` accepts it and stores it as `RegistryUrl`. -/
theorem registry_url_always_has_scheme_counterexample :
    HasPrefix "" "http://" = false ∧ HasPrefix "" "https://" = false
      ∧ (setRegistryURLCmdFunc scenario true ""
            { sampleConfig with RegistryUrl := "https://example.com/registry.json" }).1 = none
      ∧ Event.updateConfig ∈ (setRegistryURLCmdFunc scenario true ""
            { sampleConfig with RegistryUrl := "https://example.com/registry.json" }).2.2
      ∧ (setRegistryURLCmdFunc scenario true ""
            { sampleConfig with RegistryUrl := "https://example.com/registry.json" }).2.1.RegistryUrl
          = "" := by
  decide

/-- C10 (registry URL validation, amended): `setRegistryURLCmdFunc` rejects
with the error `registry URL must start with http:// or https://`, before any
probe or update, every non-empty argument that starts with neither scheme;
whenever it calls `config.UpdateConfig`, the URL its update stores as
`RegistryUrl` is the argument, and that is empty or starts with `http://` or
`https://`. -/
theorem registry_url_scheme_checked (d : Deps) (allowPrivateRegistryIp : Bool)
    (registryURL : String) (cfg : Config) :
    (registryURL ≠ "" → HasPrefix registryURL "http://" = false →
        HasPrefix registryURL "https://" = false →
        setRegistryURLCmdFunc d allowPrivateRegistryIp registryURL cfg
          = (some registryURLSchemeError, cfg, []))
      ∧ (Event.updateConfig ∈ (setRegistryURLCmdFunc d allowPrivateRegistryIp registryURL cfg).2.2 →
          (∀ c, (setRegistryURLUpdate registryURL allowPrivateRegistryIp c).1.RegistryUrl
              = registryURL)
            ∧ (registryURL = "" ∨ HasPrefix registryURL "http://" = true
                ∨ HasPrefix registryURL "https://" = true)) := by
  constructor
  · intro hne h1 h2
    unfold setRegistryURLCmdFunc
    simp [hne, h1, h2]
  · intro hev
    refine ⟨fun c => rfl, ?_⟩
    by_contra hcon
    simp only [not_or, Bool.not_eq_true] at hcon
    obtain ⟨hne, h1, h2⟩ := hcon
    unfold setRegistryURLCmdFunc at hev
    simp [hne, h1, h2] at hev

/-- Witness of C10: `ftp://example.com` is rejected and nothing is stored; an
`https` URL reaches the update. -/
theorem registry_url_scheme_checked_witness :
    ("ftp://example.com" ≠ "" ∧ HasPrefix "ftp://example.com" "http://" = false
      ∧ HasPrefix "ftp://example.com" "https://" = false
      ∧ Event.updateConfig
          ∈ (setRegistryURLCmdFunc scenario false "https://example.com/r.json" sampleConfig).2.2)
    ∧ setRegistryURLCmdFunc scenario false "ftp://example.com" sampleConfig
        = (some registryURLSchemeError, sampleConfig, [])
    ∧ ("https://example.com/r.json" = "" ∨ HasPrefix "https://example.com/r.json" "http://" = true
        ∨ HasPrefix "https://example.com/r.json" "https://" = true) :=
  ⟨⟨by decide, by decide, by decide, by decide⟩,
    (registry_url_scheme_checked scenario false "ftp://example.com" sampleConfig).1
      (by decide) (by decide) (by decide),
    ((registry_url_scheme_checked scenario false "https://example.com/r.json" sampleConfig).2
      (by decide)).2⟩

/-! ## Two runs in a row -/

theorem replayUpserts_append {σ : Type} (up : UpsertFn σ) (clientName : String)
    (xs ys : List (ConfigFile × String × String × String)) (s : σ) :
    replayUpserts up clientName (xs ++ ys) s
      = ((replayUpserts up clientName ys (replayUpserts up clientName xs s).1).1,
          (replayUpserts up clientName xs s).2
            ++ (replayUpserts up clientName ys (replayUpserts up clientName xs s).1).2) := by
  induction xs generalizing s with
  | nil => simp [replayUpserts]
  | cons x rest ih =>
    obtain ⟨cf, name, url, tr⟩ := x
    simp only [List.cons_append, replayUpserts]
    rcases hup : up cf name url tr s with ⟨_ | err, s1⟩
    · simp [ih]
    · simp [ih]

theorem upsertLoop_eq_replay {σ : Type} (up : UpsertFn σ) (clientName name url tr : String)
    (files : List ConfigFile) (s : σ) :
    upsertLoop up clientName name url tr files s
      = replayUpserts up clientName (files.map fun f => (f, name, url, tr)) s := by
  induction files generalizing s with
  | nil => rfl
  | cons f rest ih =>
    simp only [List.map_cons, replayUpserts, upsertLoop]
    rcases hup : up f name url tr s with ⟨_ | err, s1⟩
    · simp [ih]
    · simp [ih]

theorem containerLoop_eq_replay {σ : Type} (d : Deps) (up : UpsertFn σ) (clientName : String)
    (files : List ConfigFile) (cs : List ContainerInfo) (s : σ) :
    containerLoop d up clientName files cs s
      = replayUpserts up clientName (loopCalls d files cs) s := by
  induction cs generalizing s with
  | nil => rfl
  | cons c rest ih =>
    unfold containerLoop
    have hl : loopCalls d files (c :: rest)
        = loopCalls d files [c] ++ loopCalls d files rest := by
      simp [loopCalls, List.flatMap_cons]
    rw [hl, replayUpserts_append]
    by_cases ht : d.GetToolType c.Labels = "mcp"
    · cases hp : d.GetPort c.Labels with
      | error e => simp [ht, hp, ih, loopCalls, replayUpserts]
      | ok port => simp [ht, hp, ih, loopCalls, upsertLoop_eq_replay]
    · simp [ht, ih, loopCalls, replayUpserts]

theorem specUpsert_isSome (cf : ConfigFile) (name url tr : String) (fs : FileStore)
    (path : String) :
    ((specUpsert cf name url tr fs).2 path).isSome = (fs path).isSome := by
  unfold specUpsert
  cases hf : fs cf.Path with
  | none => rfl
  | some entries =>
    by_cases hany : (entries.any fun e => e.name == name) = true
    · simp [hany]
    · simp only [hany]
      by_cases hp : path = cf.Path
      · subst hp; simp [hf]
      · simp [Function.update_noteq hp]

theorem specUpsert_error (cf : ConfigFile) (name url tr : String) (fs : FileStore) :
    (specUpsert cf name url tr fs).1
      = if (fs cf.Path).isSome then none else some ("cannot update " ++ cf.Path) := by
  unfold specUpsert
  cases hf : fs cf.Path with
  | none => rfl
  | some entries =>
    by_cases hany : (entries.any fun e => e.name == name) = true
    · simp [hany]
    · simp [hany]

theorem replay_specUpsert_isSome (clientName : String)
    (calls : List (ConfigFile × String × String × String)) (fs : FileStore) (path : String) :
    ((replayUpserts specUpsert clientName calls fs).1 path).isSome = (fs path).isSome := by
  induction calls generalizing fs with
  | nil => rfl
  | cons x rest ih =>
    obtain ⟨cf, name, url, tr⟩ := x
    simp only [replayUpserts]
    have h := specUpsert_isSome cf name url tr fs path
    rcases hup : specUpsert cf name url tr fs with ⟨_ | err, s1⟩
    · rw [hup] at h; simp only [ih]; exact h
    · rw [hup] at h; simp only [ih]; exact h

theorem replay_specUpsert_events (clientName : String)
    (calls : List (ConfigFile × String × String × String)) (fs fs' : FileStore)
    (h : ∀ path, (fs path).isSome = (fs' path).isSome) :
    (replayUpserts specUpsert clientName calls fs).2
      = (replayUpserts specUpsert clientName calls fs').2 := by
  induction calls generalizing fs fs' with
  | nil => rfl
  | cons x rest ih =>
    obtain ⟨cf, name, url, tr⟩ := x
    simp only [replayUpserts]
    have h1 := specUpsert_error cf name url tr fs
    have h2 := specUpsert_error cf name url tr fs'
    rw [h cf.Path] at h1
    have hnext : ∀ path, ((specUpsert cf name url tr fs).2 path).isSome
        = ((specUpsert cf name url tr fs').2 path).isSome := by
      intro path
      rw [specUpsert_isSome, specUpsert_isSome, h path]
    have ih' := ih _ _ hnext
    rcases hup : specUpsert cf name url tr fs with ⟨e1, s1⟩
    rcases hup' : specUpsert cf name url tr fs' with ⟨e2, s2⟩
    rw [hup] at h1 ih'
    rw [hup'] at h2 ih'
    simp only at h1 h2 ih'
    have he : e1 = e2 := by rw [h1, h2]
    subst he
    cases e1 with
    | none => simp [ih']
    | some err => simp [ih']

theorem specUpsert_hasEntry_mono (cf : ConfigFile) (name url tr : String) (fs : FileStore)
    (path n : String) (h : HasEntry fs path n) :
    HasEntry (specUpsert cf name url tr fs).2 path n := by
  unfold specUpsert
  cases hf : fs cf.Path with
  | none => exact h
  | some entries =>
    by_cases hany : (entries.any fun e => e.name == name) = true
    · simpa [hany] using h
    · simp only [hany]
      by_cases hp : path = cf.Path
      · subst hp
        intro es hes
        simp only [Bool.false_eq_true, if_false, Function.update_same, Option.some.injEq] at hes
        obtain ⟨e, he, hn⟩ := h entries hf
        exact ⟨e, by rw [← hes]; exact List.mem_append_left _ he, hn⟩
      · intro es hes
        simp only [Bool.false_eq_true, if_false, Function.update_noteq hp] at hes
        exact h es hes

theorem specUpsert_hasEntry (cf : ConfigFile) (name url tr : String) (fs : FileStore) :
    HasEntry (specUpsert cf name url tr fs).2 cf.Path name := by
  unfold specUpsert
  cases hf : fs cf.Path with
  | none =>
    intro es hes
    simp only at hes
    rw [hf] at hes
    cases hes
  | some entries =>
    by_cases hany : (entries.any fun e => e.name == name) = true
    · intro es hes
      simp only [hany, if_true] at hes
      rw [hf] at hes
      cases hes
      simpa using hany
    · intro es hes
      simp only [hany, Bool.false_eq_true, if_false, Function.update_same,
        Option.some.injEq] at hes
      exact ⟨⟨name, url, tr⟩, by rw [← hes]; simp, rfl⟩

theorem specUpsert_fixed (cf : ConfigFile) (name url tr : String) (fs : FileStore)
    (h : HasEntry fs cf.Path name) : (specUpsert cf name url tr fs).2 = fs := by
  unfold specUpsert
  cases hf : fs cf.Path with
  | none => rfl
  | some entries =>
    obtain ⟨e, he, hn⟩ := h entries hf
    have hany : (entries.any fun e => e.name == name) = true := by
      simp only [List.any_eq_true, beq_iff_eq]
      exact ⟨e, he, hn⟩
    simp [hany]

theorem replay_specUpsert_mono (clientName : String)
    (calls : List (ConfigFile × String × String × String)) (fs : FileStore) (path n : String)
    (h : HasEntry fs path n) :
    HasEntry (replayUpserts specUpsert clientName calls fs).1 path n := by
  induction calls generalizing fs with
  | nil => exact h
  | cons x rest ih =>
    obtain ⟨cf, name, url, tr⟩ := x
    simp only [replayUpserts]
    have h1 := specUpsert_hasEntry_mono cf name url tr fs path n h
    rcases hup : specUpsert cf name url tr fs with ⟨_ | err, s1⟩
    · rw [hup] at h1; exact ih _ h1
    · rw [hup] at h1; exact ih _ h1

theorem replay_specUpsert_hasEntry (clientName : String)
    (calls : List (ConfigFile × String × String × String)) (fs : FileStore) :
    ∀ c ∈ calls, HasEntry (replayUpserts specUpsert clientName calls fs).1 c.1.Path c.2.1 := by
  induction calls generalizing fs with
  | nil => intro c hc; cases hc
  | cons x rest ih =>
    obtain ⟨cf, name, url, tr⟩ := x
    intro c hc
    simp only [replayUpserts]
    have h1 := specUpsert_hasEntry cf name url tr fs
    rcases hup : specUpsert cf name url tr fs with ⟨e1, s1⟩
    rw [hup] at h1
    have hgoal : HasEntry (replayUpserts specUpsert clientName rest s1).1 c.1.Path c.2.1 := by
      rcases List.mem_cons.mp hc with hc | hc
      · subst hc
        exact replay_specUpsert_mono clientName rest s1 _ _ h1
      · exact ih s1 c hc
    cases e1 with
    | none => exact hgoal
    | some err => exact hgoal

theorem replay_specUpsert_fixed (clientName : String)
    (calls : List (ConfigFile × String × String × String)) (fs : FileStore)
    (h : ∀ c ∈ calls, HasEntry fs c.1.Path c.2.1) :
    (replayUpserts specUpsert clientName calls fs).1 = fs := by
  induction calls with
  | nil => rfl
  | cons x rest ih =>
    obtain ⟨cf, name, url, tr⟩ := x
    simp only [replayUpserts]
    have h1 := specUpsert_fixed cf name url tr fs (h _ (List.mem_cons_self _ _))
    have ih' := ih (fun c hc => h c (List.mem_cons_of_mem _ hc))
    rcases hup : specUpsert cf name url tr fs with ⟨e1, s1⟩
    rw [hup] at h1
    simp only at h1
    subst h1
    cases e1 with
    | none => exact ih'
    | some err => exact ih'

theorem replay_specUpsert_idem (clientName : String)
    (calls : List (ConfigFile × String × String × String)) (fs : FileStore) :
    replayUpserts specUpsert clientName calls (replayUpserts specUpsert clientName calls fs).1
      = replayUpserts specUpsert clientName calls fs := by
  apply Prod.ext
  · rw [replay_specUpsert_fixed clientName calls _ (replay_specUpsert_hasEntry clientName calls fs)]
  · exact replay_specUpsert_events clientName calls _ _
      (fun path => replay_specUpsert_isSome clientName calls fs path)

/-- Counterexample to C5 as stated, on the scenario of section 8 of the
specification (one running MCP workload, one empty file of cursor): the
second run changes no file, yet it reports the server as added again. -/
theorem second_run_reports_nothing_added_counterexample :
    (addRunningMCPsToClient (scenarioDeps (.ok [fetchServer]) (.ok [cursorFile])) specUpsert
        "cursor" emptyCursorFiles).2.1 cursorFile.Path
        = some [⟨"fetch-server", "http://127.0.0.1:8080/sse", "sse"⟩]
      ∧ addedReports (addRunningMCPsToClient (scenarioDeps (.ok [fetchServer]) (.ok [cursorFile]))
          specUpsert "cursor"
          (addRunningMCPsToClient (scenarioDeps (.ok [fetchServer]) (.ok [cursorFile])) specUpsert
            "cursor" emptyCursorFiles).2.1).2.2
        = ["Added MCP server fetch-server to client cursor\n"] := by
  decide

/-- C5 (idempotence, amended): with `client.Upsert` as the specification
describes it, running `addRunningMCPsToClient` a second time on the files
left by the first run, with the same workloads and located files, leaves
every file as the first run left it (zero new entries), attempts the same
upserts, returns the same result and emits the same events as the first run:
the servers reported as added by the first run are reported as added again. -/
theorem second_run_changes_no_file (d : Deps) (clientName : String) (fs : FileStore) :
    (addRunningMCPsToClient d specUpsert clientName
        (addRunningMCPsToClient d specUpsert clientName fs).2.1).2.1
        = (addRunningMCPsToClient d specUpsert clientName fs).2.1
      ∧ (addRunningMCPsToClient d specUpsert clientName
          (addRunningMCPsToClient d specUpsert clientName fs).2.1).2.2
        = (addRunningMCPsToClient d specUpsert clientName fs).2.2
      ∧ (addRunningMCPsToClient d specUpsert clientName
          (addRunningMCPsToClient d specUpsert clientName fs).2.1).1
        = (addRunningMCPsToClient d specUpsert clientName fs).1
      ∧ addedReports (addRunningMCPsToClient d specUpsert clientName
          (addRunningMCPsToClient d specUpsert clientName fs).2.1).2.2
        = addedReports (addRunningMCPsToClient d specUpsert clientName fs).2.2 := by
  have key : addRunningMCPsToClient d specUpsert clientName
      (addRunningMCPsToClient d specUpsert clientName fs).2.1
      = addRunningMCPsToClient d specUpsert clientName fs := by
    unfold addRunningMCPsToClient
    rcases hg : getRunningToolHiveContainers d with ⟨_ | running, ev1⟩
    · rfl
    · simp only
      by_cases hrun : (running.length == 0) = true
      · simp [hrun]
      · simp only [hrun]
        rcases hf : getFilteredClientConfigs d clientName with ⟨_ | filtered, ev2⟩
        · rfl
        · simp only
          by_cases hloc : (filtered.length == 0) = true
          · simp [hloc]
          · simp only [hloc, Bool.false_eq_true, if_false, containerLoop_eq_replay,
              replay_specUpsert_idem]
  rw [key]
  exact ⟨rfl, rfl, rfl, rfl⟩

end Toolhive
